import Mathlib

set_option maxRecDepth 8000

/-!
Shallow embedding of the chess core in `src/board.rs` (fpf3/rust-chess).

Conventions of the embedding:
* `usize`/`u16` values are carried as `Nat`; arithmetic that Rust performs in
  `i16` (offset walks) is carried as `Int`.  A Rust expression of the shape
  `(x as i16 + d) as usize` that comes out negative casts to a huge `usize`,
  so every bounds test `t >= shape.0*shape.1` also fires for negative `t`;
  the embedding tests `t < 0 ∨ size ≤ t` accordingly.
* Fallible behaviour (Rust panics: out-of-bounds indexing, the corrupted-board
  branches of `get_table`/`get_mut_table`/`get_table_index`, integer underflow
  guards) is modelled with `Option`: `none` means the Rust code does not return
  normally.  Loops whose iteration count is not structurally bounded take a
  `fuel : Nat` argument and return `none` when the fuel runs out.
* `u16` decrement/increment wraps modulo 65536 (release-mode semantics).
* `HashMap<PieceType, Vec<usize>>` is modelled as an association list; the six
  keys are inserted by `populate_map` exactly as in the source and looked up
  with `List.lookup`.
-/

inductive Color where
  | White
  | Black
deriving Repr, DecidableEq

instance : Inhabited Color := ⟨Color.White⟩

inductive PieceType where
  | Empty
  | Pawn
  | Rook
  | Knight
  | Bishop
  | Queen
  | King
deriving Repr, DecidableEq

instance : Inhabited PieceType := ⟨PieceType.Empty⟩

inductive GameResult where
  | Active
  | DrawAgreement
  | DrawThreefold
  | Draw50Moves
  | DrawInsufficientMaterial
  | DrawTimeoutInsufficientMaterial
  | WhiteTime
  | WhiteResign
  | WhiteCheckmate
  | BlackTime
  | BlackResign
  | BlackCheckmate
deriving Repr, DecidableEq

instance : Inhabited GameResult := ⟨GameResult.Active⟩

structure Square where
  color : Color
  piece : PieceType
deriving Repr, DecidableEq

instance : Inhabited Square := ⟨⟨Color.White, PieceType.Empty⟩⟩

/-- `MoveOp` of the source; the Rust field `from` is a Lean keyword and is
spelled `from'` here. -/
structure MoveOp where
  from' : Nat
  to' : Nat
  is_enpassant : Bool
  is_castle : Bool
  set_enpassant : Bool × Nat
  promote : PieceType
deriving Repr, DecidableEq

instance : Inhabited MoveOp := ⟨⟨0, 0, false, false, (false, 0), PieceType.Empty⟩⟩

structure Board where
  squares : List Square
  shape : Nat × Nat
  piece_map : List (PieceType × List Nat)
  to_play : Color
  castling : (Bool × Bool) × (Bool × Bool)
  en_passant : Bool × Nat
  halfmove_clock : Nat
  fullmove_number : Nat
  result : GameResult
deriving Repr, DecidableEq

/-- `impl Default for Board` (source lines 691-705). -/
instance : Inhabited Board :=
  ⟨{ squares := List.replicate 64 default
     shape := (8, 8)
     piece_map := []
     to_play := Color.White
     castling := ((false, false), (false, false))
     en_passant := (false, 0)
     halfmove_clock := 0
     fullmove_number := 0
     result := GameResult.Active }⟩

def START_FEN : String := "rnbqkbnr/pppppppp/8/8/8/8/PPPPPPPP/RNBQKBNR w KQkq - 0 1"

/-- `search_piece` (lines 270-278): the ascending list of indices holding `p`. -/
def search_piece (sqs : List Square) (p : PieceType) : List Nat :=
  sqs.enum.filterMap (fun is => if is.2.piece == p then some is.1 else none)

/-- The map built by `populate_map` (lines 310-319), keys in source order. -/
def mk_piece_map (sqs : List Square) : List (PieceType × List Nat) :=
  [(PieceType.King, search_piece sqs PieceType.King),
   (PieceType.Queen, search_piece sqs PieceType.Queen),
   (PieceType.Bishop, search_piece sqs PieceType.Bishop),
   (PieceType.Knight, search_piece sqs PieceType.Knight),
   (PieceType.Rook, search_piece sqs PieceType.Rook),
   (PieceType.Pawn, search_piece sqs PieceType.Pawn)]

/-- `get_table` / `get_mut_table` (lines 280-296): `none` is the
corrupted-board branch. -/
def get_table (b : Board) (p : PieceType) : Option (List Nat) :=
  b.piece_map.lookup p

/-- `get_table_colored` (lines 287-289); indexing `squares[m]` is fallible. -/
def get_table_colored (b : Board) (p : PieceType) (c : Color) : Option (List Nat) := do
  let t ← get_table b p
  t.foldlM (fun acc i => do
    let s ← b.squares.get? i
    pure (if s.color == c then acc ++ [i] else acc)) []

/-- `get_table_index` (lines 303-308): the first position of `val`, `none` is
the corrupted-board branch. -/
def get_table_index (t : List Nat) (v : Nat) : Option Nat :=
  t.findIdx? (fun r => r == v)

/-- Replace the entry of key `p` (the in-place mutation behind
`get_mut_table`). -/
def set_table (m : List (PieceType × List Nat)) (p : PieceType) (t : List Nat) :
    List (PieceType × List Nat) :=
  m.map (fun kv => if kv.1 == p then (kv.1, t) else kv)

/-- Indexing `squares` at an index produced by `i16`-to-`usize` casting: a
negative value casts to a huge `usize` and the access fails. -/
def sq_at (b : Board) (i : Int) : Option Square :=
  if i < 0 then none else b.squares.get? i.toNat

/-- `alg_to_index` (lines 157-163): bytes of the field minus 48 (the source
subtracts the code of the digit zero from both bytes). -/
def alg_to_index (b : Board) (alg : List Char) : Option Nat := do
  let c0 ← alg.get? 0
  let c1 ← alg.get? 1
  pure ((c1.toNat - 48) * b.shape.2 + (c0.toNat - 48))

/-- Character class `[rnbqkpRNBQKP1-8]` of `FEN_EXP`. -/
def is_placement_char (c : Char) : Bool := "rnbqkpRNBQKP12345678".data.contains c

/-- Character class `[KQkq\-]` of `FEN_EXP`. -/
def is_castling_char (c : Char) : Bool := "KQkq-".data.contains c

/-- Character class `[\-a-h1-8]` of `FEN_EXP`. -/
def is_ep_char (c : Char) : Bool := "-abcdefgh12345678".data.contains c

/-- Greedy `[class]+`: the maximal nonempty prefix satisfying `p`. -/
def take_while1 (p : Char → Bool) (cs : List Char) : Option (List Char × List Char) :=
  match cs.takeWhile p with
  | [] => none
  | t => some (t, cs.drop t.length)

/-- The group `(?:[rnbqkpRNBQKP1-8]+/?){8}` of `FEN_EXP`, matched greedily;
returns the captured text (slashes included) and the rest. -/
def fen_placement_group : Nat → List Char → Option (List Char × List Char)
  | 0, cs => some ([], cs)
  | n + 1, cs => do
    let (chunk, rest) ← take_while1 is_placement_char cs
    match rest with
    | '/' :: rest' => do
      let (g, r) ← fen_placement_group n rest'
      pure (chunk ++ '/' :: g, r)
    | _ => do
      let (g, r) ← fen_placement_group n rest
      pure (chunk ++ g, r)

/-- Greedy `\s+`. -/
def fen_ws1 : List Char → Option (List Char)
  | c :: rest => if c.isWhitespace then some (rest.dropWhile Char.isWhitespace) else none
  | [] => none

/-- The `piececharmap` of `from_fen` (lines 185-192); an unrecognized letter
resolves to `Empty` (the `None => PieceType::Empty` arms of lines 206-221). -/
def piece_char_map (c : Char) : PieceType :=
  if c == 'P' then PieceType.Pawn
  else if c == 'R' then PieceType.Rook
  else if c == 'N' then PieceType.Knight
  else if c == 'B' then PieceType.Bishop
  else if c == 'Q' then PieceType.Queen
  else if c == 'K' then PieceType.King
  else PieceType.Empty

/-- `squares[i] = v` with the bounds check of `Vec` indexing. -/
def set_square (sqs : List Square) (i : Nat) (v : Square) : Option (List Square) :=
  if i < sqs.length then some (sqs.set i v) else none

/-- The digit arm of the placement loop: write `n` default squares. -/
def place_empty : Nat → Nat → List Square → Option (List Square)
  | 0, _, sqs => some sqs
  | n + 1, i, sqs => do
    let sqs' ← set_square sqs i default
    place_empty n (i + 1) sqs'

/-- One rank of the placement loop of `from_fen` (lines 195-229), returning the
updated squares and running `board_index`. -/
def place_rank : List Char → Nat → List Square → Option (List Square × Nat)
  | [], i, sqs => some (sqs, i)
  | c :: cs, i, sqs =>
    if c.isDigit then do
      let n := c.toNat - 48
      let sqs' ← place_empty n i sqs
      place_rank cs (i + n) sqs'
    else if c.isUpper then do
      let sqs' ← set_square sqs i { color := Color.White, piece := piece_char_map c }
      place_rank cs (i + 1) sqs'
    else do
      let sqs' ← set_square sqs i { color := Color.Black, piece := piece_char_map c.toUpper }
      place_rank cs (i + 1) sqs'

/-- All ranks of the placement loop. -/
def place_ranks : List (List Char) → Nat → List Square → Option (List Square)
  | [], _, sqs => some sqs
  | r :: rs, i, sqs => do
    let (sqs', i') ← place_rank r i sqs
    place_ranks rs i' sqs'

/-- `from_fen` (lines 165-268).  The regex
`^((?:[rnbqkpRNBQKP1-8]+/?){8})\s+([wb])\s+([KQkq\-]+)\s+([\-a-h1-8]+)\s+(\d)\s+(\d)`
is modelled by greedy left-to-right matching: on strings over these classes the
separators (whitespace) never belong to a class, so greedy matching coincides
with the regex engine's leftmost-first match.  The pattern is anchored only at
the start, so trailing input is ignored, and each counter field captures one
digit. -/
def from_fen (fen_string : String) : Option Board :=
  match fen_placement_group 8 fen_string.data with
  | none => none
  | some (placement, r1) =>
  match fen_ws1 r1 with
  | none => none
  | some r2 =>
  match r2.head? with
  | none => none
  | some toplay_c =>
  if !(toplay_c == 'w' || toplay_c == 'b') then none else
  match fen_ws1 (r2.drop 1) with
  | none => none
  | some r3 =>
  match take_while1 is_castling_char r3 with
  | none => none
  | some (castling_f, r4) =>
  match fen_ws1 r4 with
  | none => none
  | some r5 =>
  match take_while1 is_ep_char r5 with
  | none => none
  | some (en_passant_f, r6) =>
  match fen_ws1 r6 with
  | none => none
  | some r7 =>
  match r7.head? with
  | none => none
  | some halfmove_c =>
  if !halfmove_c.isDigit then none else
  match fen_ws1 (r7.drop 1) with
  | none => none
  | some r8 =>
  match r8.head? with
  | none => none
  | some fullmove_c =>
  if !fullmove_c.isDigit then none else
  let b0 : Board := default
  match place_ranks (placement.splitOn '/') 0 b0.squares with
  | none => none
  | some sqs =>
  let bmid : Board :=
    { b0 with
      squares := sqs
      piece_map := mk_piece_map sqs
      to_play := if toplay_c == 'w' then Color.White else Color.Black
      castling := ((castling_f.contains 'K', castling_f.contains 'Q'),
                   (castling_f.contains 'k', castling_f.contains 'q'))
      halfmove_clock := halfmove_c.toNat - 48
      fullmove_number := fullmove_c.toNat - 48 }
  if en_passant_f != ['-'] then
    match alg_to_index bmid en_passant_f with
    | none => none
    | some idx => some { bmid with en_passant := (true, idx), result := GameResult.Active }
  else
    some { bmid with result := GameResult.Active }

/-- `apply_move` (lines 321-424), fuelled for the one recursive call of the
castling branch (line 388); every board read and table lookup is threaded in
source order.  `from_index` is the position of `moveop.from` inside the mover's
piece table; the source then reads `squares[from_index]` (lines 342, 362, 374,
395, 403), which this embedding reproduces verbatim. -/
def apply_move_aux : Nat → Board → MoveOp → Option Board
  | 0, _, _ => none
  | fuel + 1, b0, moveop =>
    match b0.squares.get? moveop.from' with
    | none => none
    | some mover =>
    match get_table b0 mover.piece with
    | none => none
    | some from_table =>
    match get_table_index from_table moveop.from' with
    | none => none
    | some from_index =>
    let b1 := { b0 with
      piece_map := set_table b0.piece_map mover.piece (from_table.set from_index moveop.to') }
    -- ordinary capture (lines 330-337)
    match b1.squares.get? moveop.to' with
    | none => none
    | some to_sq =>
    match (if to_sq.piece != PieceType.Empty then
             match get_table b1 to_sq.piece with
             | none => none
             | some to_table =>
             match get_table_index to_table moveop.to' with
             | none => none
             | some to_index =>
               some ({ b1 with
                 piece_map := set_table b1.piece_map to_sq.piece (to_table.eraseIdx to_index) },
                 true)
           else some (b1, false) : Option (Board × Bool)) with
    | none => none
    | some (b2, capture1) =>
    -- en passant (lines 340-353)
    match (if moveop.is_enpassant then
             match b2.squares.get? from_index with
             | none => none
             | some s =>
             let backwards_dir : Int := match s.color with | Color.White => 1 | Color.Black => -1
             let target_pawn_index : Int := (moveop.to' : Int) + backwards_dir * (b2.shape.2 : Int)
             match get_table b2 PieceType.Pawn with
             | none => none
             | some to_table =>
             match to_table.findIdx? (fun r => (r : Int) == target_pawn_index) with
             | none => none
             | some to_index =>
               some ({ b2 with
                 piece_map := set_table b2.piece_map PieceType.Pawn (to_table.eraseIdx to_index) },
                 true)
           else some (b2, capture1) : Option (Board × Bool)) with
    | none => none
    | some (b3, capture) =>
    -- en-passant bookkeeping (lines 355-359)
    let b4 :=
      if moveop.set_enpassant.1 then { b3 with en_passant := (true, moveop.set_enpassant.2) }
      else { b3 with en_passant := (false, 0) }
    -- castling (lines 361-400)
    match b4.squares.get? from_index with
    | none => none
    | some s4 =>
    match (if s4.piece == PieceType.Rook then
             let cast := match s4.color with
               | Color.White => b4.castling.1
               | Color.Black => b4.castling.2
             let cast' :=
               if cast.1 && (from_index % b4.shape.2 == b4.shape.2 - 1) then (false, cast.2)
               else if cast.2 && (from_index % b4.shape.2 == 0) then (cast.1, false)
               else cast
             some (match s4.color with
               | Color.White => { b4 with castling := (cast', b4.castling.2) }
               | Color.Black => { b4 with castling := (b4.castling.1, cast') })
           else if s4.piece == PieceType.King then
             match (if moveop.is_castle then
                      if (moveop.from' : Int) - (moveop.to' : Int) > 0 then
                        -- queen side: from - 4 underflows below 4 (usize subtraction)
                        if moveop.from' < 4 then none
                        else apply_move_aux fuel b4
                          { (default : MoveOp) with from' := moveop.from' - 4, to' := moveop.to' + 1 }
                      else
                        if moveop.to' < 1 then none
                        else apply_move_aux fuel b4
                          { (default : MoveOp) with from' := moveop.from' + 3, to' := moveop.to' - 1 }
                    else some b4 : Option Board) with
             | none => none
             | some b4' =>
             match b4'.squares.get? from_index with
             | none => none
             | some s5 =>
               if s5.color == Color.White then
                 some { b4' with castling := ((false, false), b4'.castling.2) }
               else
                 some { b4' with castling := (b4'.castling.1, (false, false)) }
           else some b4 : Option Board) with
    | none => none
    | some b5 =>
    -- fifty-move rule (lines 402-411); u16 decrement wraps modulo 65536
    match b5.squares.get? from_index with
    | none => none
    | some s6 =>
    let b6 :=
      if capture || s6.piece == PieceType.Pawn then { b5 with halfmove_clock := 50 }
      else { b5 with halfmove_clock := (b5.halfmove_clock + 65535) % 65536 }
    let b7 := if b6.halfmove_clock == 0 then { b6 with result := GameResult.Draw50Moves } else b6
    -- relocate the square contents (lines 413-414)
    match b7.squares.get? moveop.from' with
    | none => none
    | some mv_sq =>
    let sqs1 := b7.squares.set moveop.to' mv_sq
    match sqs1.get? moveop.from' with
    | none => none
    | some cur =>
    let b8 := { b7 with squares := sqs1.set moveop.from' { cur with piece := PieceType.Empty } }
    -- flip to_play, bump fullmove_number (lines 416-423); u16 wraps
    let b9 := { b8 with to_play := match b8.to_play with
                  | Color.Black => Color.White
                  | Color.White => Color.Black }
    if b9.to_play == Color.White
    then some { b9 with fullmove_number := (b9.fullmove_number + 1) % 65536 }
    else some b9

/-- `apply_move`: the only recursive call (castle rook relocation) passes a
`MoveOp` with `is_castle = false`, so recursion depth is at most 2. -/
def apply_move (b : Board) (moveop : MoveOp) : Option Board :=
  apply_move_aux 2 b moveop

/-- `apply_move_nomut` (lines 426-431): clone then apply. -/
def apply_move_nomut (b : Board) (moveop : MoveOp) : Option Board :=
  apply_move b moveop

/-- One direction's `loop` of `get_sliding_moves_single` (lines 457-490).
State per iteration: the offset accumulator `index` (which the source resets
to 0 at the end of every non-breaking iteration, lines 487 and 489), the
`eob_flag`, and the shared `moves` vector.  `none` means the loop neither
breaks nor returns within `fuel` iterations (or an indexing failure). -/
def slide_walk (b : Board) (start_index : Nat) (start_color : Color) (inc : Int) :
    Nat → Int → Bool → List MoveOp → Option (List MoveOp)
  | 0, _, _, _ => none
  | fuel + 1, index, eob_flag, moves =>
    let index' := index + inc
    let target_index : Int := (start_index : Int) + index'
    if target_index < 0 ∨ ((b.shape.1 * b.shape.2 : Nat) : Int) ≤ target_index ∨ eob_flag = true then
      some moves
    else
      match b.squares.get? target_index.toNat with
      | none => none
      | some target =>
        let eob' := eob_flag || (target_index.toNat % b.shape.2 == 0)
                    || (target_index.toNat % b.shape.2 == b.shape.2 - 1)
        if target.color == start_color then
          some moves
        else if target.color != start_color && target.piece != PieceType.Empty then
          some (moves ++ [{ from' := start_index, to' := target_index.toNat,
                            is_enpassant := false, is_castle := false,
                            set_enpassant := (false, 0), promote := PieceType.Empty }])
        else
          slide_walk b start_index start_color inc fuel 0 eob' moves

/-- The `for inc in incs` loop of `get_sliding_moves_single`: each direction
walks with a fresh `eob_flag` and offset, appending into the shared vector. -/
def slide_dirs (b : Board) (start_index : Nat) (start_color : Color) (fuel : Nat) :
    List Int → List MoveOp → Option (List MoveOp)
  | [], moves => some moves
  | inc :: rest, moves =>
    match slide_walk b start_index start_color inc fuel 0 false moves with
    | none => none
    | some moves' => slide_dirs b start_index start_color fuel rest moves'

/-- `get_sliding_moves_single` (lines 433-493). -/
def get_sliding_moves_single (fuel : Nat) (b : Board) (piece : PieceType) (start_index : Nat) :
    Option (List MoveOp) := do
  let start_sq ← b.squares.get? start_index
  let rook_incs : List Int := [8, -8, 1, -1]
  let bishop_incs : List Int := [9, 7, -7, -9]
  let incs : List Int :=
    if piece == PieceType.Rook then rook_incs
    else if piece == PieceType.Bishop then bishop_incs
    else if piece == PieceType.Queen then rook_incs ++ bishop_incs
    else []
  slide_dirs b start_index start_sq.color fuel incs []

/-- `get_sliding_moves` (lines 495-505). -/
def get_sliding_moves (fuel : Nat) (b : Board) (piece : PieceType) : Option (List MoveOp) := do
  let indices ← get_table_colored b piece b.to_play
  indices.foldlM (fun moves start_index => do
    let ms ← get_sliding_moves_single fuel b piece start_index
    pure (moves ++ ms)) []

/-- `get_knight_moves_single` (lines 507-546).  The source extracts the file of
an index `x` as `x - (x & 0x7ff8)`, which equals `x % 8` for `0 ≤ x < 2^15`;
for a negative (wrapped) target the bounds test fires first (the `||` of line
527 short-circuits), so the file expression is only used in range. -/
def get_knight_moves_single (b : Board) (start_index : Nat) : Option (List MoveOp) := do
  let start_sq ← b.squares.get? start_index
  let incs : List Int := [-10, -6, -17, -15, 6, 10, 16, 17]
  let loc1 : Int := (start_index : Int) % 8
  let dist_closest_edge : Int := if loc1 < 4 then loc1 else 8 - loc1
  incs.foldlM (fun moves inc => do
    let target_index : Int := (start_index : Int) + inc
    if target_index < 0 ∨ ((b.shape.1 * b.shape.2 : Nat) : Int) ≤ target_index then
      pure moves
    else
      let index_horiz_shift : Int := target_index % 8 - loc1
      if dist_closest_edge < (index_horiz_shift.natAbs : Int) then
        pure moves
      else do
        let target_sq ← b.squares.get? target_index.toNat
        if target_sq.color == start_sq.color then
          pure moves
        else
          pure (moves ++ [{ from' := start_index, to' := target_index.toNat,
                            is_enpassant := false, is_castle := false,
                            set_enpassant := (false, 0), promote := PieceType.Empty }])) []

/-- `get_knight_moves` (lines 548-557). -/
def get_knight_moves (b : Board) : Option (List MoveOp) := do
  let indices ← get_table_colored b PieceType.Knight b.to_play
  indices.foldlM (fun moves start_index => do
    let ms ← get_knight_moves_single b start_index
    pure (moves ++ ms)) []

/-- `get_king_moves` (lines 559-591).  Source line 569 builds `loc.1` from
`target_index` rather than `start_index`, so the horizontal-shift guard
compares the target's file with itself (shift 0) and never fires; only the
bounds test of line 572 remains effective. -/
def get_king_moves (b : Board) : Option (List MoveOp) := do
  let indices ← get_table_colored b PieceType.King b.to_play
  indices.foldlM (fun moves start_index => do
    let start_sq ← b.squares.get? start_index
    let incs : List Int := [-9, -8, -7, -1, 1, 7, 8, 9]
    incs.foldlM (fun moves inc => do
      let target_index : Int := (start_index : Int) + inc
      if target_index < 0 ∨ ((b.shape.1 * b.shape.2 : Nat) : Int) ≤ target_index then
        pure moves
      else do
        let target_sq ← b.squares.get? target_index.toNat
        if target_sq.color == start_sq.color then
          pure moves
        else
          pure (moves ++ [{ from' := start_index, to' := target_index.toNat,
                            is_enpassant := false, is_castle := false,
                            set_enpassant := (false, 0), promote := PieceType.Empty }])) moves) []

/-- `get_pawn_moves_single` (lines 593-652). -/
def get_pawn_moves_single (b : Board) (start_index : Nat) (c : Color) : Option (List MoveOp) := do
  let direction : Int := match c with | Color.White => -1 | Color.Black => 1
  let w : Int := (b.shape.2 : Nat)
  let advance1 : Int := (start_index : Int) + direction * w
  let a1 ← sq_at b advance1
  let moves ←
    if a1.piece == PieceType.Empty then do
      let m1 : MoveOp := { from' := start_index, to' := advance1.toNat,
                           is_enpassant := false, is_castle := false,
                           set_enpassant := (false, 0), promote := PieceType.Empty }
      let advance2 : Int := (start_index : Int) + 2 * direction * w
      let a2 ← sq_at b advance2
      if a2.piece == PieceType.Empty then
        pure [m1, { from' := start_index, to' := advance2.toNat,
                    is_enpassant := false, is_castle := false,
                    set_enpassant := (true, advance1.toNat), promote := PieceType.Empty }]
      else
        pure [m1]
    else
      pure ([] : List MoveOp)
  let attack_indices : List Int :=
    (if start_index % b.shape.2 ≠ 0 then [(start_index : Int) + direction * w - 1] else []) ++
    (if start_index % b.shape.2 ≠ b.shape.2 - 1 then [(start_index : Int) + direction * w + 1] else [])
  attack_indices.foldlM (fun moves index => do
    let s ← sq_at b index
    let moves :=
      if s.piece != PieceType.Empty && s.color != c then
        moves ++ [{ from' := start_index, to' := index.toNat,
                    is_enpassant := false, is_castle := false,
                    set_enpassant := (false, 0), promote := PieceType.Empty }]
      else moves
    let moves :=
      if b.en_passant.1 && (index == (b.en_passant.2 : Int)) then
        moves ++ [{ from' := start_index, to' := index.toNat,
                    is_enpassant := true, is_castle := false,
                    set_enpassant := (false, 0), promote := PieceType.Empty }]
      else moves
    pure moves) moves

/-- `get_pawn_moves` (lines 654-662). -/
def get_pawn_moves (b : Board) : Option (List MoveOp) := do
  let indices ← get_table_colored b PieceType.Pawn b.to_play
  indices.foldlM (fun moves start_index => do
    let ms ← get_pawn_moves_single b start_index b.to_play
    pure (moves ++ ms)) []

/-- `get_all_moves` (lines 665-674): king, queen, bishop, rook, knight; no
pawn moves. -/
def get_all_moves (fuel : Nat) (b : Board) : Option (List MoveOp) :=
  match get_king_moves b with
  | none => none
  | some km =>
  match get_sliding_moves fuel b PieceType.Queen with
  | none => none
  | some qm =>
  match get_sliding_moves fuel b PieceType.Bishop with
  | none => none
  | some bm =>
  match get_sliding_moves fuel b PieceType.Rook with
  | none => none
  | some rm =>
  match get_knight_moves b with
  | none => none
  | some nm => some (km ++ qm ++ bm ++ rm ++ nm)

/-- `get_legal_moves` (lines 676-688). -/
def get_legal_moves (fuel : Nat) (b : Board) : Option (List MoveOp) :=
  match get_all_moves fuel b with
  | none => none
  | some candidates =>
    candidates.foldlM (fun moves m =>
      match apply_move_nomut b m with
      | none => none
      | some newboard =>
      match get_table_colored newboard PieceType.King b.to_play with
      | none => none
      | some kings =>
      match kings.get? 0 with
      | none => none
      | some kingloc =>
      match get_all_moves fuel newboard with
      | none => none
      | some opp =>
        some (if opp.any (fun o => o.to' == kingloc) then moves else moves ++ [m])) []

/-! ### Fixtures: concrete boards drawn from the spec's testable properties -/

/-- The board parsed from the standard starting notation. -/
def start_board : Board := (from_fen START_FEN).getD default

/-- The six real piece kinds (the piece-location index excludes `Empty`). -/
def piece_kinds : List PieceType :=
  [PieceType.Pawn, PieceType.Rook, PieceType.Knight, PieceType.Bishop,
   PieceType.Queen, PieceType.King]

/-- The synchronization invariant of the spec: for every board index `i` and
piece kind `k`, `squares[i].piece == k` iff `i` is in `piece_map[k]`. -/
def piece_map_inv (b : Board) : Bool :=
  piece_kinds.all fun k =>
    match get_table b k with
    | none => false
    | some t => (List.range b.squares.length).all fun i =>
        ((b.squares.getD i default).piece == k) == t.contains i

/-- Boards obtained from `b0` by applying a finite sequence of moves, each
member of `get_legal_moves` of the board it is applied to (fuel 100 amply
covers every sliding walk that terminates on an 8x8 board). -/
inductive Reached (b0 : Board) : Board → Prop where
  | refl : Reached b0 b0
  | step {b b' : Board} {m : MoveOp} {l : List MoveOp} :
      Reached b0 b → get_legal_moves 100 b = some l → m ∈ l →
      apply_move b m = some b' → Reached b0 b'

/-- A position with Black to move and a Black rook on d4 (index 35), produced
by the notation codec. -/
def FEN_C1 : String := "4k3/8/8/8/3r4/8/8/4K3 b - - 0 1"

def board_c1 : Board := (from_fen FEN_C1).getD default

/-- A king move MoveOp from index 4 used to spell out reducts of
`get_all_moves board_c1`. -/
def c1_mv (t : Nat) : MoveOp := ⟨4, t, false, false, (false, 0), PieceType.Empty⟩

/-- The en-passant position of the spec's testable property: White pawn e5,
Black pawn d5, en-passant target d6. -/
def FEN_C4 : String := "4k3/8/8/3pP3/8/8/8/4K3 w - d6 0 1"

def board_c4 : Board := (from_fen FEN_C4).getD default

/-- Kings only, White king on its home square e1 (index 60), both White
castling rights set. -/
def FEN_C5 : String := "4k3/8/8/8/8/8/8/4K3 w KQ - 5 1"

def board_c5 : Board := (from_fen FEN_C5).getD default

/-- A plain White king move e1 to e2 (not a castle). -/
def mv_c5 : MoveOp := ⟨60, 52, false, false, (false, 0), PieceType.Empty⟩

/-- White rook on h8 (index 7, file 7), Black pawn on a7 (index 8, file 0 of
the next rank), White to move. -/
def board_c6 : Board :=
  let sqs := ((((List.replicate 64 (default : Square)).set 7
      ⟨Color.White, PieceType.Rook⟩).set 8 ⟨Color.Black, PieceType.Pawn⟩).set 60
      ⟨Color.White, PieceType.King⟩).set 4 ⟨Color.Black, PieceType.King⟩
  { squares := sqs, shape := (8, 8), piece_map := mk_piece_map sqs, to_play := Color.White,
    castling := ((false, false), (false, false)), en_passant := (false, 0),
    halfmove_clock := 10, fullmove_number := 1, result := GameResult.Active }

/-- Sole White rook on a7 (index 8), a Black pawn on index 0; the rook's table
is `[8]`, so its table position is 0 and `squares[0]` holds the pawn. -/
def board_c7 : Board :=
  let sqs := ((((List.replicate 64 (default : Square)).set 0
      ⟨Color.Black, PieceType.Pawn⟩).set 8 ⟨Color.White, PieceType.Rook⟩).set 60
      ⟨Color.White, PieceType.King⟩).set 4 ⟨Color.Black, PieceType.King⟩
  { squares := sqs, shape := (8, 8), piece_map := mk_piece_map sqs, to_play := Color.White,
    castling := ((false, false), (false, false)), en_passant := (false, 0),
    halfmove_clock := 30, fullmove_number := 3, result := GameResult.Active }

/-- A rook move a7 to a6 (index 8 to 16): mover is a Rook, target empty. -/
def mv_c7 : MoveOp := ⟨8, 16, false, false, (false, 0), PieceType.Empty⟩

/-- White knight on b1 (index 57), kings, everything else empty (default
squares carry color White). -/
def board_c9 : Board :=
  let sqs := (((List.replicate 64 (default : Square)).set 57
      ⟨Color.White, PieceType.Knight⟩).set 60 ⟨Color.White, PieceType.King⟩).set 4
      ⟨Color.Black, PieceType.King⟩
  { squares := sqs, shape := (8, 8), piece_map := mk_piece_map sqs, to_play := Color.White,
    castling := ((false, false), (false, false)), en_passant := (false, 0),
    halfmove_clock := 10, fullmove_number := 1, result := GameResult.Active }

/-- `board_c9` with only the color field of the empty square 40 flipped to
Black; the piece fields and the piece map are untouched. -/
def board_c9_flipped : Board :=
  { board_c9 with squares := board_c9.squares.set 40 ⟨Color.Black, PieceType.Empty⟩ }

/-- The start notation with the multi-digit fullmove field 10. -/
def FEN_C8 : String := "rnbqkbnr/pppppppp/8/8/8/8/PPPPPPPP/RNBQKBNR w KQkq - 0 10"

/-! ### Helper lemmas -/

/-- The walk of the Black rook's first direction (+8) from index 35 never
terminates: square 43 is empty and in range, its file (3) is not an edge file,
and its default color White differs from Black, so the iteration neither
breaks nor pushes and re-enters with the offset reset to 0. -/
theorem slide_walk_c1_none (m : List MoveOp) :
    ∀ fuel : Nat, slide_walk board_c1 35 Color.Black 8 fuel 0 false m = none := by
  intro fuel
  induction fuel with
  | zero => rfl
  | succ n ih => exact Eq.trans (by rfl) ih

theorem bind_none_of_none {α β : Type} {o : Option α} (h : o = none) (k : α → Option β) :
    o.bind k = none := by
  rw [h]; rfl

theorem c1_single_none (fuel : Nat) :
    get_sliding_moves_single fuel board_c1 PieceType.Rook 35 = none := by
  show slide_dirs board_c1 35 Color.Black fuel [8, -8, 1, -1] [] = none
  show (match slide_walk board_c1 35 Color.Black 8 fuel 0 false [] with
        | none => none
        | some moves' => slide_dirs board_c1 35 Color.Black fuel [-8, 1, -1] moves') = none
  rw [slide_walk_c1_none]

theorem c1_sliding_none (fuel : Nat) :
    get_sliding_moves fuel board_c1 PieceType.Rook = none :=
  bind_none_of_none (bind_none_of_none (c1_single_none fuel) _) _

theorem c1_all_none (fuel : Nat) : get_all_moves fuel board_c1 = none := by
  show (match get_sliding_moves fuel board_c1 PieceType.Rook with
        | none => none
        | some rm =>
          match get_knight_moves board_c1 with
          | none => none
          | some nm =>
            some ([c1_mv 3, c1_mv 5, c1_mv 11, c1_mv 12, c1_mv 13] ++ [] ++ [] ++ rm ++ nm)) = none
  rw [c1_sliding_none]

theorem c1_legal_none (fuel : Nat) : get_legal_moves fuel board_c1 = none := by
  simp only [get_legal_moves]
  rw [c1_all_none]

theorem legal_start_empty : get_legal_moves 100 start_board = some [] := by decide

theorem reached_start_eq {b : Board} (h : Reached start_board b) : b = start_board := by
  induction h with
  | refl => rfl
  | step hr hl hm ha ih =>
    subst ih
    rw [legal_start_empty] at hl
    injection hl with hl2
    subst hl2
    exact absurd hm (List.not_mem_nil _)

/-! ### Claim theorems -/

/-- Claim C1 (refuting evaluation): move generation is not total.  On the
board parsed from `FEN_C1` (Black to move, Black rook on index 35), the
direction walk of `get_sliding_moves_single` returns within no amount of fuel:
the first step lands on the empty in-range non-edge square 43, whose default
color White differs from Black, so the loop neither breaks nor emits and
re-runs with its offset reset to 0.  Consequently `get_sliding_moves`,
`get_all_moves` and `get_legal_moves` also fail to return on this board. -/
theorem C1_sliding_generation_diverges :
    from_fen FEN_C1 = some board_c1 ∧
    board_c1.to_play = Color.Black ∧
    board_c1.squares.getD 35 default = { color := Color.Black, piece := PieceType.Rook } ∧
    ∀ fuel : Nat,
      get_sliding_moves_single fuel board_c1 PieceType.Rook 35 = none ∧
      get_sliding_moves fuel board_c1 PieceType.Rook = none ∧
      get_all_moves fuel board_c1 = none ∧
      get_legal_moves fuel board_c1 = none :=
  ⟨by decide, by decide, by decide, fun fuel =>
    ⟨c1_single_none fuel, c1_sliding_none fuel, c1_all_none fuel, c1_legal_none fuel⟩⟩

/-- Claim C2: for every board reached from the parsed start position by a
sequence of legal moves (each member of `get_legal_moves` of the board it is
applied to), the piece-location map is exactly synchronized with `squares`.
This holds, though degenerately: `get_legal_moves` of the start position is
`some []` (see the C3 theorem), so the only reachable board is the start
position itself, where the invariant holds by `populate_map`. -/
theorem C2_piece_map_sync {b : Board} (h : Reached start_board b) :
    piece_map_inv b = true := by
  rw [reached_start_eq h]
  decide

theorem C2_piece_map_sync_witness :
    Reached start_board start_board ∧ piece_map_inv start_board = true :=
  ⟨Reached.refl, C2_piece_map_sync Reached.refl⟩

/-- Claim C3 (refuting evaluation): `get_legal_moves` on the parsed standard
start position returns the empty list, not 20 moves.  White's knights cannot
move to empty squares (empty squares carry default color White, matching the
knights), every other non-pawn move is blocked, and `get_all_moves` omits pawn
moves altogether; `get_pawn_moves` alone would contribute 16 moves. -/
theorem C3_start_position_legal_moves_empty :
    from_fen START_FEN = some start_board ∧
    get_legal_moves 100 start_board = some [] ∧
    (get_pawn_moves start_board).map List.length = some 16 :=
  ⟨by decide, legal_start_empty, by decide⟩

/-- Claim C4 (refuting evaluation): on the board parsed from `FEN_C4`,
`alg_to_index` decodes the en-passant field d6 to 100 (it subtracts the byte
value 48 of the digit zero from the file letter d, byte 100, and keeps the raw
rank digit), not to 19, the board index of d6.  The White pawn generator hence
produces only the two advances; no generated move carries `is_enpassant` and
none targets d6, so no en-passant capture exists to apply. -/
theorem C4_enpassant_move_not_generated :
    from_fen FEN_C4 = some board_c4 ∧
    board_c4.en_passant = (true, 100) ∧
    board_c4.squares.getD 27 default = { color := Color.Black, piece := PieceType.Pawn } ∧
    board_c4.squares.getD 28 default = { color := Color.White, piece := PieceType.Pawn } ∧
    get_pawn_moves board_c4 = some
      [{ from' := 28, to' := 20, is_enpassant := false, is_castle := false,
         set_enpassant := (false, 0), promote := PieceType.Empty },
       { from' := 28, to' := 12, is_enpassant := false, is_castle := false,
         set_enpassant := (true, 20), promote := PieceType.Empty }] ∧
    (get_pawn_moves board_c4).map (fun l => l.all (fun m => !m.is_enpassant && m.to' != 19)) =
      some true :=
  ⟨by decide, by decide, by decide, by decide, by decide, by decide⟩

/-- Claim C5 (refuting evaluation): on `board_c5` (White king on its home
square 60, both White castling rights set) the plain king move 60 to 52 leaves
both White castling booleans still true.  `apply_move` tests the piece kind at
`squares[from_index]` where `from_index` is the king's position inside the
King table (here 1, since the table is `[4, 60]`), and `squares[1]` is empty,
so the rights-clearing branch is never entered. -/
theorem C5_king_move_keeps_castling :
    from_fen FEN_C5 = some board_c5 ∧
    board_c5.squares.getD 60 default = { color := Color.White, piece := PieceType.King } ∧
    board_c5.castling.1 = (true, true) ∧
    (apply_move board_c5 mv_c5).map (fun b => (b.castling.1, b.squares.getD 52 default)) =
      some ((true, true), { color := Color.White, piece := PieceType.King }) :=
  ⟨by decide, by decide, by decide, by decide⟩

/-- Claim C6 (refuting evaluation): on `board_c6`, the White rook on index 7
(file 7) walking the +1 direction emits the capture 7 to 8 — a destination on
file 0 of the next rank.  The edge flag is set only after the wrapped target
has been reached and is tested only on the next iteration, so the wrapped
capture is emitted before the walk stops. -/
theorem C6_rook_last_file_wraps :
    board_c6.to_play = Color.White ∧
    board_c6.squares.getD 7 default = { color := Color.White, piece := PieceType.Rook } ∧
    slide_walk board_c6 7 Color.White 1 100 0 false [] =
      some [{ from' := 7, to' := 8, is_enpassant := false, is_castle := false,
              set_enpassant := (false, 0), promote := PieceType.Empty }] ∧
    get_sliding_moves_single 100 board_c6 PieceType.Rook 7 =
      some [{ from' := 7, to' := 8, is_enpassant := false, is_castle := false,
              set_enpassant := (false, 0), promote := PieceType.Empty }] :=
  ⟨by decide, by decide, by decide, by decide⟩

/-- Claim C7 (refuting evaluation): on `board_c7` the rook move 8 to 16 is a
non-pawn non-capture move, yet `apply_move` resets the halfmove clock from 30
to its starting budget 50, because it reads the mover's kind from
`squares[from_index]` (the table position 0, holding a Black pawn) instead of
`squares[from]`.  The fullmove bookkeeping is as claimed: this White move
leaves `fullmove_number` at 3. -/
theorem C7_halfmove_reset_on_rook_move :
    board_c7.squares.getD 8 default = { color := Color.White, piece := PieceType.Rook } ∧
    board_c7.squares.getD 16 default = { color := Color.White, piece := PieceType.Empty } ∧
    mv_c7.is_enpassant = false ∧
    board_c7.halfmove_clock = 30 ∧
    (apply_move board_c7 mv_c7).map (fun b => (b.halfmove_clock, b.fullmove_number)) =
      some (50, 3) :=
  ⟨by decide, by decide, by decide, by decide, by decide⟩

/-- Claim C8 (refuting evaluation): the string `FEN_C8` has six fields of the
documented grammar with fullmove field 10, but the parser's pattern captures a
single digit per counter and is not anchored at the end, so parsing succeeds
with `fullmove_number = 1`, silently dropping the trailing digit. -/
theorem C8_multidigit_fullmove_truncated :
    (from_fen FEN_C8).map (fun b => (b.halfmove_clock, b.fullmove_number)) = some (0, 1) := by
  decide

/-- Claim C9 (refuting evaluation): the color field of an empty square is
inspected by move generation.  On `board_c9` the White knight on 57 generates
no moves (its empty targets carry default color White, equal to its own);
flipping only the color of the empty square 40 to Black makes the generator
emit the move 57 to 40. -/
theorem C9_empty_square_color_observed :
    (board_c9.squares.getD 40 default).piece = PieceType.Empty ∧
    board_c9_flipped.squares = board_c9.squares.set 40 ⟨Color.Black, PieceType.Empty⟩ ∧
    get_knight_moves board_c9 = some [] ∧
    get_knight_moves board_c9_flipped = some
      [{ from' := 57, to' := 40, is_enpassant := false, is_castle := false,
         set_enpassant := (false, 0), promote := PieceType.Empty }] :=
  ⟨by decide, rfl, by decide, by decide⟩

/-- Claim C10: on `Board::default()` the piece map is empty, so `get_table`
hits the corrupted-board branch for every piece kind, and every move
generator built on it fails instead of returning a move list, for any fuel. -/
theorem C10_default_board_all_lookups_panic :
    (default : Board).piece_map = [] ∧
    (∀ p : PieceType, get_table (default : Board) p = none) ∧
    (∀ fuel : Nat, ∀ p : PieceType, get_sliding_moves fuel (default : Board) p = none) ∧
    (∀ fuel : Nat, get_all_moves fuel (default : Board) = none ∧
      get_legal_moves fuel (default : Board) = none) ∧
    get_knight_moves (default : Board) = none ∧
    get_king_moves (default : Board) = none ∧
    get_pawn_moves (default : Board) = none :=
  ⟨rfl, fun _ => rfl, fun _ _ => rfl, fun _ => ⟨rfl, rfl⟩, rfl, rfl, rfl⟩
